import Mathlib

/-!
Verification of the Graph-ARG retrieval-and-grounding pipeline.

This file gives a shallow embedding of the repository's core components
(`vector_store.py`, `embeddings.py`, `response_generator.py`,
`pdf_processor.py`, `rag_orchestrator.py`, `config.py`) and proves or
refutes the frozen claims about them.

Modelling conventions:
- Python floats are modelled as rationals (`ℚ`); none of the claims is
  about floating-point rounding.
- The Neo4j store is modelled as the list of `Chunk` nodes in creation
  order.  Writes go through the embedded Cypher statements of
  `vector_store.py`; reads model the result rows of the embedded queries.
- Stateful Python methods become explicit state-passing functions; a
  raised exception becomes an `Except.error` value.
-/

/-- A `(:Chunk)` node as created by `VectorStore.store_chunk`
(vector_store.py lines 76-91): properties `id`, `text`, `source`,
`chunk_index`, `embedding`, `metadata` (the stringified dict). -/
structure StoredChunk where
  id : String
  text : String
  source : String
  chunkIndex : Nat
  embedding : List ℚ
  metadata : String
deriving DecidableEq

/-- The Neo4j database state: all `(:Chunk)` nodes in order of node
creation (earlier-inserted first). -/
abbrev Store := List StoredChunk

/-- The multiset of chunk ids present in the store, in insertion order. -/
def idsOf (s : Store) : List String := s.map (fun c => c.id)

/-- The schema invariant installed by `VectorStore._setup_schema`
(vector_store.py lines 42-45): `CREATE CONSTRAINT chunk_id ... REQUIRE
c.id IS UNIQUE`. -/
def UniqueIds (s : Store) : Prop := (idsOf s).Nodup

/-- The node record written by one `store_chunk` call: the `SET` clause
of vector_store.py lines 77-83 assigns exactly these properties. -/
def mkChunk (chunkId text : String) (embedding : List ℚ) (source : String)
    (chunkIndex : Nat) (metadata : String) : StoredChunk :=
  ⟨chunkId, text, source, chunkIndex, embedding, metadata⟩

/-- `VectorStore.store_chunk` (vector_store.py lines 63-91):
`MERGE (c:Chunk {id: $id}) SET c.text = ..., c.source = ...,
c.chunk_index = ..., c.embedding = ..., c.metadata = ...`.
`MERGE` matches every existing node with the given `id` and `SET`
overwrites its properties; if none exists a new node is created
(appended in creation order).  Argument order follows the Python
signature `(chunk_id, text, embedding, source, chunk_index, metadata)`;
`metadata` is the already-stringified `str(metadata)`, kept opaque. -/
def storeChunk (s : Store) (chunkId text : String) (embedding : List ℚ)
    (source : String) (chunkIndex : Nat) (metadata : String) : Store :=
  if s.any (fun c => c.id == chunkId) then
    s.map (fun c =>
      if c.id == chunkId then mkChunk chunkId text embedding source chunkIndex metadata
      else c)
  else
    s ++ [mkChunk chunkId text embedding source chunkIndex metadata]

/-- Result of `VectorStore.delete_by_source` (vector_store.py lines
184-198).  The Cypher `MATCH (c:Chunk {source: $source}) DELETE c RETURN
count(c)` removes every matching node and yields the number of matched
rows, which the Python code binds to `deleted` and prints.  The Python
method body has no `return` statement, so its return value is `None`,
modelled as `retVal := none`. -/
structure DeleteOutcome where
  store : Store
  printed : Nat
  retVal : Option Nat
deriving DecidableEq

/-- `VectorStore.delete_by_source` (vector_store.py lines 184-198). -/
def deleteBySource (s : Store) (source : String) : DeleteOutcome :=
  { store := s.filter (fun c => !(c.source == source))
    printed := (s.filter (fun c => c.source == source)).length
    retVal := none }

/-- One result row of `VectorStore.search_similar` (vector_store.py lines
146-156): the dict `{id, text, source, chunk_index, similarity}`. -/
structure SearchResult where
  id : String
  text : String
  source : String
  chunkIndex : Nat
  similarity : ℚ
deriving DecidableEq

/-- The similarity expression of the Cypher query in
`VectorStore.search_similar` (vector_store.py lines 129-144):
`reduce(dot = 0.0, i IN range(0, size(c.embedding)-1) |
dot + c.embedding[i] * $query_embedding[i])`.
The fold ranges over the indices of the stored embedding.  (Under the
schema of `_setup_schema` all stored vectors and the query vector share
the configured dimensionality, so the index accesses are in range; the
model defaults an out-of-range access to `0` where Cypher would produce
`null`.) -/
def dotSim (embedding query : List ℚ) : ℚ :=
  (List.range embedding.length).foldl
    (fun dot i => dot + embedding.getD i 0 * query.getD i 0) 0

/-- The scored rows produced by the `MATCH (c:Chunk) WITH c, ... AS
similarity RETURN ...` part of `search_similar`, one per stored chunk,
before `ORDER BY`/`LIMIT`. -/
def scoredChunks (s : Store) (query : List ℚ) : List SearchResult :=
  s.map (fun c => ⟨c.id, c.text, c.source, c.chunkIndex, dotSim c.embedding query⟩)

/-- Rows are in weakly decreasing order of `similarity` (what Cypher's
`ORDER BY similarity DESC` guarantees). -/
def SimSorted (l : List SearchResult) : Prop :=
  l.Pairwise (fun a b => b.similarity ≤ a.similarity)

/-- Admissible results of `VectorStore.search_similar` (vector_store.py
lines 116-156).  Cypher's `ORDER BY similarity DESC` guarantees only
that the returned rows are the stored rows arranged in weakly decreasing
similarity order; it fixes no order among rows with equal similarity.
`LIMIT $top_k` then keeps the first `top_k` rows.  So `res` is an
admissible result exactly when it is the `k`-prefix of some
similarity-sorted arrangement of all scored rows. -/
def SearchOk (s : Store) (query : List ℚ) (k : Nat) (res : List SearchResult) : Prop :=
  ∃ full : List SearchResult,
    full.Perm (scoredChunks s query) ∧ SimSorted full ∧ res = full.take k

/-- C5: for every store state (including the empty store) and every
`k ≥ 1`, `search_similar` returns an ordered sequence of length
`min k (number of stored chunks)`; in particular searching an empty
store returns the empty sequence and is not an error. -/
theorem search_similar_k_bounded (s : Store) (query : List ℚ) (k : Nat)
    (res : List SearchResult) (_hk : 1 ≤ k) (h : SearchOk s query k res) :
    res.length = min k s.length ∧ (s = [] → res = []) := by
  obtain ⟨full, hperm, -, hres⟩ := h
  have hlen : full.length = s.length := by
    have h1 := hperm.length_eq
    simpa [scoredChunks] using h1
  constructor
  · subst hres
    simp [List.length_take, hlen]
  · intro hs
    subst hs
    have : full = [] := by
      have : full.Perm [] := by simpa [scoredChunks] using hperm
      exact this.eq_nil
    simp [hres, this]

/-- Concrete store used by the C5 witness. -/
def exStoreC5 : Store :=
  [⟨"doc_chunk_0", "Paris is the capital of France.", "doc.pdf", 0, [1], "m"⟩]

/-- Witness for C5 at a one-chunk store with `k = 1`. -/
theorem search_similar_k_bounded_witness :
    (1 ≤ 1) ∧ SearchOk exStoreC5 [1] 1 (scoredChunks exStoreC5 [1]) ∧
      ((scoredChunks exStoreC5 [1]).length = min 1 exStoreC5.length ∧
        (exStoreC5 = [] → scoredChunks exStoreC5 [1] = [])) :=
  ⟨le_refl 1,
   ⟨scoredChunks exStoreC5 [1], List.Perm.refl _,
     by simp [SimSorted, scoredChunks, exStoreC5], rfl⟩,
   search_similar_k_bounded exStoreC5 [1] 1 (scoredChunks exStoreC5 [1])
     (le_refl 1)
     ⟨scoredChunks exStoreC5 [1], List.Perm.refl _,
       by simp [SimSorted, scoredChunks, exStoreC5], rfl⟩⟩

/-- Store with two chunks whose embeddings are identical, so both score
the same similarity against any query.  The first list element is the
earlier-inserted chunk. -/
def exStoreC6 : Store :=
  [⟨"a0", "alpha", "doc.pdf", 0, [1], "m"⟩,
   ⟨"b1", "beta", "doc.pdf", 1, [1], "m"⟩]

/-- Scored row of the earlier-inserted chunk of `exStoreC6`. -/
def exRowA : SearchResult := ⟨"a0", "alpha", "doc.pdf", 0, dotSim [1] [1]⟩

/-- Scored row of the later-inserted chunk of `exStoreC6`. -/
def exRowB : SearchResult := ⟨"b1", "beta", "doc.pdf", 1, dotSim [1] [1]⟩

/-- C6 counterexample: the Cypher `ORDER BY similarity DESC` of
`search_similar` has no secondary sort key, so for two chunks with equal
similarity both orders are admissible results.  In particular the result
`[exRowB, exRowA]`, where the later-inserted chunk ranks first, is
admissible, and two distinct admissible results exist for the same fixed
store and query — refuting both insertion-order tie-breaking and
repeated-call determinism. -/
theorem search_tie_counterexample :
    SearchOk exStoreC6 [1] 2 [exRowB, exRowA] ∧
    SearchOk exStoreC6 [1] 2 [exRowA, exRowB] ∧
    exRowA.similarity = exRowB.similarity ∧
    ([exRowB, exRowA] : List SearchResult) ≠ [exRowA, exRowB] := by
  have hscored : scoredChunks exStoreC6 [1] = [exRowA, exRowB] := rfl
  refine ⟨⟨[exRowB, exRowA], ?_, ?_, rfl⟩, ⟨[exRowA, exRowB], ?_, ?_, rfl⟩, rfl, ?_⟩
  · rw [hscored]; exact List.Perm.swap _ _ _
  · simp [SimSorted, exRowA, exRowB]
  · rw [hscored]
  · simp [SimSorted, exRowA, exRowB]
  · simp [exRowA, exRowB]

/-- C6 amended: every admissible result of `search_similar` is ordered
by similarity score weakly descending (the part of the ranking contract
the code does guarantee). -/
theorem search_similar_sorted (s : Store) (query : List ℚ) (k : Nat)
    (res : List SearchResult) (h : SearchOk s query k res) : SimSorted res := by
  obtain ⟨full, -, hsort, hres⟩ := h
  subst hres
  exact hsort.sublist (List.take_sublist _ _)

/-- Witness for the amended C6 at a concrete admissible result. -/
theorem search_similar_sorted_witness :
    SearchOk exStoreC6 [1] 2 (scoredChunks exStoreC6 [1]) ∧
      SimSorted (scoredChunks exStoreC6 [1]) :=
  ⟨⟨scoredChunks exStoreC6 [1], List.Perm.refl _,
      by simp [SimSorted, scoredChunks, exStoreC6], rfl⟩,
   search_similar_sorted exStoreC6 [1] 2 (scoredChunks exStoreC6 [1])
     ⟨scoredChunks exStoreC6 [1], List.Perm.refl _,
       by simp [SimSorted, scoredChunks, exStoreC6], rfl⟩⟩

/-- Splitting a list by a Boolean predicate preserves total length. -/
theorem length_filter_split (p : StoredChunk → Bool) (s : List StoredChunk) :
    (s.filter p).length + (s.filter (fun c => !(p c))).length = s.length := by
  induction s with
  | nil => rfl
  | cons c t ih => cases hc : p c <;> simp [List.filter_cons, hc] <;> omega

/-- C3 amended: `delete_by_source` removes exactly the chunks whose
`source` matches, leaves every other chunk, prints the removed count,
and returns `None` (the Python method has no `return` statement); on an
unknown source it is not an error, the state is unchanged and the
printed count is 0. -/
theorem delete_by_source_spec (s : Store) (source : String) :
    (deleteBySource s source).retVal = none ∧
    (deleteBySource s source).printed + (deleteBySource s source).store.length = s.length ∧
    (∀ c ∈ (deleteBySource s source).store, c ∈ s ∧ c.source ≠ source) ∧
    (∀ c ∈ s, c.source ≠ source → c ∈ (deleteBySource s source).store) ∧
    ((∀ c ∈ s, c.source ≠ source) →
      (deleteBySource s source).store = s ∧ (deleteBySource s source).printed = 0) := by
  refine ⟨rfl, ?_, ?_, ?_, ?_⟩
  · simpa [deleteBySource] using
      length_filter_split (fun c => c.source == source) s
  · intro c hc
    simpa [deleteBySource] using List.mem_filter.mp hc
  · intro c hc hne
    simp only [deleteBySource]
    exact List.mem_filter.mpr ⟨hc, by simpa using hne⟩
  · intro hall
    constructor
    · simp only [deleteBySource]
      exact List.filter_eq_self.mpr (fun c hc => by simpa using hall c hc)
    · simp only [deleteBySource, List.length_eq_zero]
      exact List.filter_eq_nil_iff.mpr (fun c hc => by simpa using hall c hc)

/-- One-chunk store used by the C3 counterexample and witness. -/
def exStoreC3 : Store := [⟨"doc_chunk_0", "t", "doc.pdf", 0, [1], "m"⟩]

/-- C3 counterexample: deleting the only chunk of source `"doc.pdf"`
removes one chunk (the printed count is 1), yet the call's return value
is `None`, not the number of chunks removed. -/
theorem delete_by_source_no_return_counterexample :
    (deleteBySource exStoreC3 "doc.pdf").printed = 1 ∧
    (deleteBySource exStoreC3 "doc.pdf").retVal ≠
      some ((deleteBySource exStoreC3 "doc.pdf").printed) := by
  constructor
  · rfl
  · intro h
    simp [deleteBySource] at h

/-- Witness for the amended C3: deleting an unknown source from a
one-chunk store returns `None`, leaves the store unchanged and prints 0. -/
theorem delete_by_source_spec_witness :
    (∀ c ∈ exStoreC3, c.source ≠ "other.pdf") ∧
    (deleteBySource exStoreC3 "other.pdf").retVal = none ∧
    ((deleteBySource exStoreC3 "other.pdf").store = exStoreC3 ∧
      (deleteBySource exStoreC3 "other.pdf").printed = 0) :=
  ⟨by decide, (delete_by_source_spec exStoreC3 "other.pdf").1,
   (delete_by_source_spec exStoreC3 "other.pdf").2.2.2.2 (by decide)⟩

/-- In-place update of the node matched by id does not change the id
column of the store. -/
theorem idsOf_update (s : Store) (cid : String) (w : StoredChunk) (hw : w.id = cid) :
    idsOf (s.map (fun c => if c.id == cid then w else c)) = idsOf s := by
  simp only [idsOf, List.map_map]
  apply List.map_congr_left
  intro a _
  by_cases h : a.id = cid
  · simp [Function.comp, h, hw]
  · simp [Function.comp, h]

/-- If no element of `t` carries the id, the update map leaves no
element carrying the id either. -/
theorem filter_update_of_absent (t : Store) (cid : String) (w : StoredChunk)
    (h : ∀ x ∈ t, (x.id == cid) = false) :
    (t.map (fun c => if c.id == cid then w else c)).filter (fun c => c.id == cid) = [] := by
  apply List.filter_eq_nil_iff.mpr
  intro c hc
  rcases List.mem_map.mp hc with ⟨x, hx, rfl⟩
  have hfx := h x hx
  simp [hfx]

/-- Under the uniqueness constraint, updating the matched node leaves
exactly one node carrying the id, with the freshly written record. -/
theorem filter_update_of_mem (s : Store) (cid : String) (w : StoredChunk)
    (hw : w.id = cid) (hnod : UniqueIds s)
    (hmem : s.any (fun c => c.id == cid) = true) :
    (s.map (fun c => if c.id == cid then w else c)).filter (fun c => c.id == cid) = [w] := by
  induction s with
  | nil => simp at hmem
  | cons c t ih =>
    by_cases hc : c.id = cid
    · have habs : ∀ x ∈ t, (x.id == cid) = false := by
        intro x hx
        have hnotin : c.id ∉ idsOf t := by
          simp only [UniqueIds, idsOf, List.map_cons, List.nodup_cons] at hnod
          exact hnod.1
        cases hxid : (x.id == cid)
        · rfl
        · exfalso
          apply hnotin
          simp only [idsOf, List.mem_map]
          exact ⟨x, hx, by rw [show x.id = cid from by simpa using hxid, hc]⟩
      simp only [List.map_cons, List.filter_cons]
      simp only [hc, hw, List.filter_cons]
      simp [hc, hw]
      intro a ha
      have hfa : a.id ≠ cid := by simpa using habs a ha
      rw [if_neg hfa]
      exact hfa
    · have hmem' : t.any (fun x => x.id == cid) = true := by
        rcases List.any_eq_true.mp hmem with ⟨x, hx, hxid⟩
        rcases List.mem_cons.mp hx with rfl | hxt
        · exact absurd (by simpa using hxid) hc
        · exact List.any_eq_true.mpr ⟨x, hxt, hxid⟩
      have hnod' : UniqueIds t := by
        simp only [UniqueIds, idsOf, List.map_cons, List.nodup_cons] at hnod
        exact hnod.2
      simp only [List.map_cons, List.filter_cons]
      have h1 : (if (c.id == cid) = true then w else c) = c := by simp [hc]
      rw [h1]
      have h2 : ¬((c.id == cid) = true) := by simp [hc]
      rw [if_neg h2]
      exact ih hnod' hmem'

/-- After a `store_chunk` call on a store satisfying the id-uniqueness
constraint, exactly the freshly written record carries the written id. -/
theorem storeChunk_filter (s : Store) (cid text : String) (emb : List ℚ)
    (src : String) (idx : Nat) (md : String) (hnod : UniqueIds s) :
    (storeChunk s cid text emb src idx md).filter (fun c => c.id == cid) =
      [mkChunk cid text emb src idx md] := by
  unfold storeChunk
  by_cases hmem : s.any (fun c => c.id == cid) = true
  · rw [if_pos hmem]
    exact filter_update_of_mem s cid _ rfl hnod hmem
  · rw [if_neg hmem]
    rw [List.filter_append]
    have habs : ∀ x ∈ s, (x.id == cid) = false := by
      intro x hx
      cases h : (x.id == cid)
      · rfl
      · exact absurd (List.any_eq_true.mpr ⟨x, hx, h⟩) hmem
    have h1 : s.filter (fun c => c.id == cid) = [] :=
      List.filter_eq_nil_iff.mpr (fun c hc => by simp [habs c hc])
    rw [h1]
    simp [mkChunk]

/-- `store_chunk` preserves the id-uniqueness constraint. -/
theorem storeChunk_unique (s : Store) (cid text : String) (emb : List ℚ)
    (src : String) (idx : Nat) (md : String) (hnod : UniqueIds s) :
    UniqueIds (storeChunk s cid text emb src idx md) := by
  unfold storeChunk
  by_cases hmem : s.any (fun c => c.id == cid) = true
  · rw [if_pos hmem]
    unfold UniqueIds
    rw [idsOf_update s cid _ rfl]
    exact hnod
  · rw [if_neg hmem]
    have habs : ∀ x ∈ s, (x.id == cid) = false := by
      intro x hx
      cases h : (x.id == cid)
      · rfl
      · exact absurd (List.any_eq_true.mpr ⟨x, hx, h⟩) hmem
    unfold UniqueIds idsOf
    rw [List.map_append]
    refine List.Nodup.append (by exact hnod) (by simp) ?_
    intro a ha hb
    simp only [List.map_cons, List.map_nil, List.mem_singleton, mkChunk] at hb
    rcases List.mem_map.mp ha with ⟨x, hx, rfl⟩
    have := habs x hx
    simp only [hb] at this
    simp at this

/-- One replayed ingestion of a chunk id: the payload of a single
`store_chunk` call other than the id itself. -/
structure WriteReq where
  text : String
  embedding : List ℚ
  source : String
  chunkIndex : Nat
  metadata : String
deriving DecidableEq

/-- A `store_chunk` call with the given id and payload. -/
def applyWrite (s : Store) (cid : String) (w : WriteReq) : Store :=
  storeChunk s cid w.text w.embedding w.source w.chunkIndex w.metadata

/-- Replaying `store_chunk` for one id with a sequence of payloads
(re-ingestion of the same chunk id). -/
def storeReplays (s : Store) (cid : String) (ws : List WriteReq) : Store :=
  ws.foldl (fun st w => applyWrite st cid w) s

/-- Replays preserve the id-uniqueness constraint. -/
theorem storeReplays_unique (ws : List WriteReq) (s : Store) (cid : String)
    (hnod : UniqueIds s) : UniqueIds (storeReplays s cid ws) := by
  induction ws generalizing s with
  | nil => exact hnod
  | cons w ws ih =>
    exact ih (applyWrite s cid w) (storeChunk_unique s cid _ _ _ _ _ hnod)

/-- C7: storing a chunk id that may already exist overwrites: after any
positive number of replays of `store_chunk` with the same id on a store
satisfying the id-uniqueness schema constraint, exactly one record
carries that id, and its fields are those of the latest write.  The
constraint is itself preserved. -/
theorem store_chunk_upsert (s : Store) (cid : String) (ws : List WriteReq)
    (hu : UniqueIds s) (hne : ws ≠ []) :
    ((storeReplays s cid ws).filter (fun c => c.id == cid)).length = 1 ∧
    (∀ c ∈ storeReplays s cid ws, c.id = cid →
      some c = (ws.getLast?).map
        (fun w => mkChunk cid w.text w.embedding w.source w.chunkIndex w.metadata)) ∧
    UniqueIds (storeReplays s cid ws) := by
  have hrev : ws = ws.reverse.reverse := (List.reverse_reverse ws).symm
  cases hr : ws.reverse with
  | nil =>
    exact absurd (by rw [hrev, hr]; rfl) hne
  | cons w rws =>
    have hdec : ws = rws.reverse ++ [w] := by
      rw [hrev, hr, List.reverse_cons]
    have huniq' : UniqueIds (storeReplays s cid rws.reverse) :=
      storeReplays_unique rws.reverse s cid hu
    have hfold : storeReplays s cid ws = applyWrite (storeReplays s cid rws.reverse) cid w := by
      rw [hdec]
      simp [storeReplays, List.foldl_append]
    have hfil : (storeReplays s cid ws).filter (fun c => c.id == cid) =
        [mkChunk cid w.text w.embedding w.source w.chunkIndex w.metadata] := by
      rw [hfold]
      exact storeChunk_filter _ cid _ _ _ _ _ huniq'
    have hlast : ws.getLast? = some w := by
      rw [hdec]
      exact List.getLast?_concat _
    refine ⟨by rw [hfil]; rfl, ?_, ?_⟩
    · intro c hc hcid
      have hmemf : c ∈ (storeReplays s cid ws).filter (fun c => c.id == cid) :=
        List.mem_filter.mpr ⟨hc, by simp [hcid]⟩
      rw [hfil] at hmemf
      rw [hlast]
      simp only [List.mem_singleton] at hmemf
      rw [hmemf]
      rfl
    · rw [hfold]
      exact storeChunk_unique _ cid _ _ _ _ _ huniq'

/-- Payloads for the C7 witness: two writes with different texts. -/
def exWrites : List WriteReq :=
  [⟨"first text", [1], "doc.pdf", 0, "m"⟩, ⟨"latest text", [1], "doc.pdf", 0, "m"⟩]

/-- Witness for C7: replaying id `"doc_chunk_0"` twice into the empty
store leaves exactly one record under that id, carrying the second
write's text. -/
theorem store_chunk_upsert_witness :
    UniqueIds ([] : Store) ∧ exWrites ≠ [] ∧
    (((storeReplays [] "doc_chunk_0" exWrites).filter (fun c => c.id == "doc_chunk_0")).length = 1 ∧
      (∀ c ∈ storeReplays [] "doc_chunk_0" exWrites, c.id = "doc_chunk_0" →
        some c = (exWrites.getLast?).map
          (fun w => mkChunk "doc_chunk_0" w.text w.embedding w.source w.chunkIndex w.metadata)) ∧
      UniqueIds (storeReplays [] "doc_chunk_0" exWrites)) :=
  ⟨by simp [UniqueIds, idsOf], by simp [exWrites],
   store_chunk_upsert [] "doc_chunk_0" exWrites (by simp [UniqueIds, idsOf]) (by simp [exWrites])⟩

/-- A chunk dict as produced by `PDFProcessor.extract_chunks` and
consumed by `store_chunks_batch`: keys `id`, `text`, `source`,
`chunk_index`, `metadata` (kept opaque here; `store_chunk` stringifies
it). -/
structure ChunkData where
  id : String
  text : String
  source : String
  chunkIndex : Nat
  metadata : String
deriving DecidableEq

/-- The loop body of `store_chunks_batch` (vector_store.py lines
103-111): one `store_chunk` call for a zipped `(chunk, embedding)`
pair. -/
def batchStep (st : Store) (ce : ChunkData × List ℚ) : Store :=
  storeChunk st ce.1.id ce.1.text ce.2 ce.1.source ce.1.chunkIndex ce.1.metadata

/-- `VectorStore.store_chunks_batch` (vector_store.py lines 93-114):
`for chunk, embedding in zip(chunks, embeddings): self.store_chunk(...)`.
The second component is the chunk count reported by the closing success
message (`All {len(chunks)} chunks stored successfully!`), printed
unconditionally. -/
def storeChunksBatch (s : Store) (chunks : List ChunkData)
    (embeddings : List (List ℚ)) : Store × Nat :=
  ((chunks.zip embeddings).foldl batchStep s, chunks.length)

/-- `zip` only consumes the first `l2.length` elements of `l1`. -/
theorem zip_eq_zip_take (l1 : List ChunkData) (l2 : List (List ℚ)) :
    l1.zip l2 = (l1.take l2.length).zip l2 := by
  induction l1 generalizing l2 with
  | nil => simp
  | cons a l1 ih =>
    cases l2 with
    | nil => simp
    | cons b l2 => simp [ih l2]

/-- Ids present after one `store_chunk` call: the prior ids plus the
written id. -/
theorem mem_idsOf_storeChunk (s : Store) (cid text : String) (emb : List ℚ)
    (src : String) (idx : Nat) (md : String) (x : String) :
    x ∈ idsOf (storeChunk s cid text emb src idx md) ↔ x ∈ idsOf s ∨ x = cid := by
  unfold storeChunk
  by_cases hmem : s.any (fun c => c.id == cid) = true
  · rw [if_pos hmem, idsOf_update s cid _ rfl]
    constructor
    · exact Or.inl
    · rintro (h | rfl)
      · exact h
      · rcases List.any_eq_true.mp hmem with ⟨c, hcs, hcid⟩
        have hcx : c.id = x := by simpa using hcid
        simp only [idsOf]
        exact List.mem_map.mpr ⟨c, hcs, hcx⟩
  · rw [if_neg hmem]
    simp [idsOf, mkChunk]

/-- Ids present after the batch loop: the prior ids plus the ids of the
pairs actually processed. -/
theorem mem_idsOf_batchFold (L : List (ChunkData × List ℚ)) (s : Store) (x : String)
    (h : x ∈ idsOf (L.foldl batchStep s)) :
    x ∈ idsOf s ∨ ∃ ce ∈ L, x = ce.1.id := by
  induction L generalizing s with
  | nil => exact Or.inl h
  | cons ce L ih =>
    simp only [List.foldl_cons] at h
    rcases ih (batchStep s ce) h with h1 | h2
    · rcases (mem_idsOf_storeChunk s ce.1.id ce.1.text ce.2 ce.1.source
        ce.1.chunkIndex ce.1.metadata x).mp h1 with ha | hb
      · exact Or.inl ha
      · exact Or.inr ⟨ce, List.mem_cons_self _ _, hb⟩
    · rcases h2 with ⟨ce2, hce2, hx⟩
      exact Or.inr ⟨ce2, List.mem_cons_of_mem _ hce2, hx⟩

/-- C10: `store_chunks_batch` pairs the i-th chunk with the i-th
embedding purely by position (`zip`); when the embeddings list is
shorter, the surplus chunks are silently skipped: the resulting store
equals the one obtained from only the first `len(embeddings)` chunks, no
error is raised (the function is total), and the closing success message
still reports all `len(chunks)` chunks.  A surplus chunk whose id is not
already present and is not shared with a processed chunk is absent from
the resulting store. -/
theorem store_chunks_batch_skips (s : Store) (chunks : List ChunkData)
    (embeddings : List (List ℚ)) :
    (storeChunksBatch s chunks embeddings).1 =
      (storeChunksBatch s (chunks.take embeddings.length) embeddings).1 ∧
    (storeChunksBatch s chunks embeddings).2 = chunks.length ∧
    (∀ ch ∈ chunks.drop embeddings.length, ch.id ∉ idsOf s →
      (∀ c2 ∈ chunks.take embeddings.length, c2.id ≠ ch.id) →
      ch.id ∉ idsOf (storeChunksBatch s chunks embeddings).1) := by
  refine ⟨?_, rfl, ?_⟩
  · simp only [storeChunksBatch]
    rw [zip_eq_zip_take chunks embeddings,
      zip_eq_zip_take (chunks.take embeddings.length) embeddings, List.take_take]
  · intro ch _hch hnotin hne habs
    simp only [storeChunksBatch] at habs
    rcases mem_idsOf_batchFold _ _ _ habs with h1 | ⟨ce, hce, hx⟩
    · exact hnotin h1
    · rw [zip_eq_zip_take chunks embeddings] at hce
      obtain ⟨c2, e2⟩ := ce
      have hmem2 := List.of_mem_zip hce
      exact hne c2 hmem2.1 hx.symm

/-- Chunks for the C10 witness: two chunks but only one embedding. -/
def exChunksC10 : List ChunkData :=
  [⟨"doc_chunk_0", "t0", "doc.pdf", 0, "m"⟩, ⟨"doc_chunk_1", "t1", "doc.pdf", 1, "m"⟩]

/-- Embeddings for the C10 witness (shorter than the chunk list). -/
def exEmbsC10 : List (List ℚ) := [[1]]

/-- Witness for C10: with two chunks and one embedding, the batch
reports 2 chunks stored but the second chunk is silently absent. -/
theorem store_chunks_batch_skips_witness :
    (storeChunksBatch [] exChunksC10 exEmbsC10).2 = 2 ∧
    (⟨"doc_chunk_1", "t1", "doc.pdf", 1, "m"⟩ : ChunkData) ∈
      exChunksC10.drop exEmbsC10.length ∧
    "doc_chunk_1" ∉ idsOf (storeChunksBatch [] exChunksC10 exEmbsC10).1 :=
  ⟨(store_chunks_batch_skips [] exChunksC10 exEmbsC10).2.1,
   by decide,
   (store_chunks_batch_skips [] exChunksC10 exEmbsC10).2.2
     ⟨"doc_chunk_1", "t1", "doc.pdf", 1, "m"⟩ (by decide) (by decide) (by decide)⟩

/-- Python's `str.strip` whitespace set: space, tab, newline, carriage
return, vertical tab, form feed. -/
def pyWhitespace (c : Char) : Bool :=
  c == ' ' || c == '\t' || c == '\n' || c == '\r' || c == '\x0b' || c == '\x0c'

/-- `para.strip()` (pdf_processor.py line 69): drop leading and trailing
whitespace. -/
def pyStrip (s : String) : String :=
  ⟨((s.data.dropWhile pyWhitespace).reverse.dropWhile pyWhitespace).reverse⟩

/-- `Config.chunk_min_length` (config.py line 36): `20`. -/
def chunkMinLength : Nat := 20

/-- A chunk dict built by `PDFProcessor.extract_chunks` method 1
(pdf_processor.py lines 73-82), with its metadata fields
`{"length": ..., "extraction_method": "markdown"}` inlined. -/
structure PdfChunk where
  id : String
  text : String
  source : String
  chunkIndex : Nat
  metaLength : Nat
  metaMethod : String
deriving DecidableEq

/-- The paragraph loop of `PDFProcessor.extract_chunks` method 1
(pdf_processor.py lines 64-83): for each paragraph of the
double-newline-split markdown export, strip it, and keep it as a chunk
only if `text and len(text) > self.min_chunk_length`; `stem` is
`Path(pdf_path).stem` and `fname` is `Path(pdf_path).name`; `chunkId` is
the running `chunk_id` counter, incremented only on kept chunks. -/
def extractFromParagraphs (minLen : Nat) (stem fname : String) :
    List String → Nat → List PdfChunk
  | [], _ => []
  | para :: rest, chunkId =>
    let text := pyStrip para
    if text ≠ "" ∧ minLen < text.length then
      ⟨stem ++ "_chunk_" ++ toString chunkId, text, fname, chunkId,
        text.length, "markdown"⟩ ::
        extractFromParagraphs minLen stem fname rest (chunkId + 1)
    else
      extractFromParagraphs minLen stem fname rest chunkId

/-- C9 amended: a paragraph is kept exactly when its stripped text is
non-empty and STRICTLY longer than the configured minimum
(`len(text) > self.min_chunk_length`); the kept chunk texts are, in
order, the stripped paragraphs passing that test. -/
theorem extract_chunks_keeps_iff (minLen : Nat) (stem fname : String)
    (paras : List String) (chunkId : Nat) :
    (extractFromParagraphs minLen stem fname paras chunkId).map (fun c => c.text) =
      (paras.map pyStrip).filter
        (fun t => decide (t ≠ "") && decide (minLen < t.length)) := by
  induction paras generalizing chunkId with
  | nil => rfl
  | cons p rest ih =>
    simp only [extractFromParagraphs, List.map_cons, List.filter_cons]
    by_cases h : pyStrip p ≠ "" ∧ minLen < (pyStrip p).length
    · rw [if_pos h]
      simp [h.1, h.2, ih]
    · rw [if_neg h]
      rcases Decidable.not_and_iff_or_not.mp h with h1 | h2
      · simp only [Decidable.not_not] at h1
        simp [h1, ih]
      · simp [h2, ih]

/-- A paragraph whose stripped text has length exactly 20, the
configured minimum. -/
def exPara20 : String := "aaaaaaaaaaaaaaaaaaaa"

/-- C9 counterexample: a paragraph whose stripped text is non-empty and
has length exactly the configured minimum (20) satisfies the claim's
keep-condition (length ≥ minimum), yet the code rejects it because it
tests `len(text) > min_chunk_length` strictly. -/
theorem extract_chunks_at_min_counterexample :
    pyStrip exPara20 ≠ "" ∧
    chunkMinLength ≤ (pyStrip exPara20).length ∧
    extractFromParagraphs chunkMinLength "doc" "doc.pdf" [exPara20] 0 = [] := by
  refine ⟨by decide, by decide, by decide⟩

/-- The fixed sentinel returned by `ResponseGenerator._build_context`
for an empty result list (response_generator.py line 80). -/
def noContextSentinel : String := "No relevant context found."

/-- One labeled context block of `_build_context`
(response_generator.py lines 84-87): 1-based rank, source name, chunk
position, then the raw text. -/
def contextBlock (i : Nat) (c : SearchResult) : String :=
  "[Context " ++ toString i ++ " - Source: " ++ c.source ++ ", Chunk " ++
    toString c.chunkIndex ++ "]\n" ++ c.text ++ "\n"

/-- The `enumerate(chunks, 1)` accumulation loop of `_build_context`
(response_generator.py lines 82-87). -/
def contextParts : Nat → List SearchResult → List String
  | _, [] => []
  | i, c :: rest => contextBlock i c :: contextParts (i + 1) rest

/-- `ResponseGenerator._build_context` (response_generator.py lines
69-89): the sentinel for an empty list, otherwise the blocks joined with
a newline. -/
def buildContext (chunks : List SearchResult) : String :=
  if chunks.isEmpty then noContextSentinel
  else String.intercalate "\n" (contextParts 1 chunks)

/-- The accumulated parts are the enumerated blocks. -/
theorem contextParts_eq_enumFrom (cs : List SearchResult) (i : Nat) :
    contextParts i cs = (List.enumFrom i cs).map (fun p => contextBlock p.1 p.2) := by
  induction cs generalizing i with
  | nil => rfl
  | cons c rest ih => simp [contextParts, List.enumFrom, ih]

/-- C8: context assembly is a pure function of the result list; it
yields the fixed sentinel for an empty list, and otherwise one block per
result — labeled with the 1-based rank, source name and position,
followed by the raw text — joined in ranking order. -/
theorem build_context_spec :
    buildContext [] = noContextSentinel ∧
    ∀ cs : List SearchResult, cs ≠ [] →
      buildContext cs = String.intercalate "\n"
        ((List.enumFrom 1 cs).map (fun p =>
          "[Context " ++ toString p.1 ++ " - Source: " ++ p.2.source ++ ", Chunk " ++
            toString p.2.chunkIndex ++ "]\n" ++ p.2.text ++ "\n")) := by
  constructor
  · rfl
  · intro cs hcs
    cases cs with
    | nil => exact absurd rfl hcs
    | cons c rest =>
      have hb : buildContext (c :: rest) =
          String.intercalate "\n" (contextParts 1 (c :: rest)) := rfl
      rw [hb, contextParts_eq_enumFrom]
      simp [contextBlock]

/-- Row for the C8 witness. -/
def exRowC8 : SearchResult := ⟨"id0", "some text", "doc.pdf", 3, 1⟩

/-- Witness for C8 at a one-element result list. -/
theorem build_context_spec_witness :
    ([exRowC8] : List SearchResult) ≠ [] ∧
    buildContext [exRowC8] = String.intercalate "\n"
      ((List.enumFrom 1 [exRowC8]).map (fun p =>
        "[Context " ++ toString p.1 ++ " - Source: " ++ p.2.source ++ ", Chunk " ++
          toString p.2.chunkIndex ++ "]\n" ++ p.2.text ++ "\n")) :=
  ⟨by simp, build_context_spec.2 [exRowC8] (by simp)⟩

/-- The canned no-result answer of `RAGOrchestrator.query`
(rag_orchestrator.py line 136). -/
def fallbackAnswer : String :=
  "I couldn\x27t find any relevant information in the knowledge base to answer your question."

/-- `Config.top_k_results` (config.py line 37): the default number of
results when the caller passes no `top_k`. -/
def topKDefault : Nat := 5

/-- The dict returned by `RAGOrchestrator.query` (rag_orchestrator.py
lines 134-138 and 149-153): `{question, answer, sources}`. -/
structure QueryResponse where
  question : String
  answer : String
  sources : List SearchResult
deriving DecidableEq

/-- `RAGOrchestrator.query` (rag_orchestrator.py lines 107-153),
parameterised by its collaborators: `embed` is
`embedding_generator.generate_query_embedding`, `search` is
`vector_store.search_similar`, `gen` is `response_generator.generate`
(all assumed to return normally here; the claim is about the retrieval
branch).  The Boolean component instruments whether
`response_generator.generate` was invoked on this call. -/
def ragQuery (embed : String → List ℚ)
    (search : List ℚ → Nat → List SearchResult)
    (gen : String → List SearchResult → String)
    (question : String) (topK : Option Nat) : QueryResponse × Bool :=
  let k := topK.getD topKDefault
  let queryEmbedding := embed question
  let relevantChunks := search queryEmbedding k
  if relevantChunks.isEmpty then
    (⟨question, fallbackAnswer, []⟩, false)
  else
    (⟨question, gen question relevantChunks, relevantChunks⟩, true)

/-- C2: when similarity retrieval returns zero results, `query` returns
the fixed fallback answer with an empty source list and never invokes
the answer synthesizer — the outcome is also independent of which
synthesizer is plugged in. -/
theorem query_no_context_short_circuit (embed : String → List ℚ)
    (search : List ℚ → Nat → List SearchResult)
    (gen : String → List SearchResult → String)
    (question : String) (topK : Option Nat)
    (h : search (embed question) (topK.getD topKDefault) = []) :
    ragQuery embed search gen question topK = (⟨question, fallbackAnswer, []⟩, false) ∧
    ∀ gen2, ragQuery embed search gen2 question topK =
      ragQuery embed search gen question topK := by
  constructor
  · simp [ragQuery, h]
  · intro gen2
    simp [ragQuery, h]

/-- Stub embedding client used by the C2 and C1 witnesses. -/
def exEmbed : String → List ℚ := fun _ => [1]

/-- Retrieval stub returning zero results. -/
def exSearchEmpty : List ℚ → Nat → List SearchResult := fun _ _ => []

/-- Synthesizer stub. -/
def exGen : String → List SearchResult → String := fun _ _ => "generated"

/-- Witness for C2 at a concrete query with empty retrieval. -/
theorem query_no_context_short_circuit_witness :
    exSearchEmpty (exEmbed "What is X?") ((none : Option Nat).getD topKDefault) = [] ∧
    ragQuery exEmbed exSearchEmpty exGen "What is X?" none =
      (⟨"What is X?", fallbackAnswer, []⟩, false) :=
  ⟨rfl,
   (query_no_context_short_circuit exEmbed exSearchEmpty exGen "What is X?" none rfl).1⟩

/-- A raised Python exception relevant to `process_and_store_pdf`. -/
inductive PyExc where
  | nameError (name : String)
deriving DecidableEq

/-- The structured outcome dict of `process_and_store_pdf`
(rag_orchestrator.py lines 74-78): `{success, message,
chunks_processed}`. -/
structure IngestOutcome where
  success : Bool
  message : String
  chunksProcessed : Nat
deriving DecidableEq

/-- `RAGOrchestrator.process_and_store_pdf` (rag_orchestrator.py lines
57-105), given the chunk list already produced by
`pdf_processor.extract_chunks` and an embedding client assumed to
succeed (the regime of claim C1).  With no chunks it returns the
non-fatal failure dict.  Otherwise it generates one embedding per chunk,
stores the batch, and then evaluates the success return dict at line
104 — which references the local name `stats` whose only assignment
(line 81, `stats = self.pdf_processor.get_chunk_statistics(chunks)`) is
commented out, so the return statement raises `NameError: name 'stats'
is not defined` after the chunks were already stored. -/
def processAndStorePdf (store : Store) (embed : String → List ℚ)
    (chunks : List ChunkData) : Except PyExc IngestOutcome × Store :=
  if chunks.isEmpty then
    (.ok ⟨false, "No chunks extracted from PDF", 0⟩, store)
  else
    let embeddings := chunks.map (fun c => embed c.text)
    ((.error (.nameError "stats") : Except PyExc IngestOutcome),
     (storeChunksBatch store chunks embeddings).1)

/-- C1: whenever extraction yields a non-empty chunk list and embedding
and storage succeed, `process_and_store_pdf` does NOT return the claimed
success-plus-statistics outcome: it raises `NameError` on the name
`stats` (the statistics assignment is commented out). -/
theorem process_pdf_stats_name_error (store : Store) (embed : String → List ℚ)
    (chunks : List ChunkData) (h : chunks ≠ []) :
    (processAndStorePdf store embed chunks).1 =
      Except.error (PyExc.nameError "stats") := by
  cases chunks with
  | nil => exact absurd rfl h
  | cons c rest => rfl

/-- Chunk list for the C1 witness. -/
def exChunksC1 : List ChunkData :=
  [⟨"doc_chunk_0", "Paris is the capital of France.", "doc.pdf", 0, "m"⟩]

/-- Witness for C1 at a concrete one-chunk ingestion. -/
theorem process_pdf_stats_name_error_witness :
    exChunksC1 ≠ [] ∧
    (processAndStorePdf [] exEmbed exChunksC1).1 =
      Except.error (PyExc.nameError "stats") :=
  ⟨by decide, process_pdf_stats_name_error [] exEmbed exChunksC1 (by decide)⟩

/-- Whether `needle` is a leading prefix of `hay` (character lists). -/
def listStarts : List Char → List Char → Bool
  | [], _ => true
  | _ :: _, [] => false
  | a :: as, b :: bs => a == b && listStarts as bs

/-- Whether `needle` occurs contiguously in `hay` (character lists). -/
def listHasSub (needle : List Char) : List Char → Bool
  | [] => needle.isEmpty
  | b :: bs => listStarts needle (b :: bs) || listHasSub needle bs

/-- Python's `needle in hay` substring test. -/
def strContains (hay needle : String) : Bool := listHasSub needle.data hay.data

/-- The rate-limit classification shared by `EmbeddingGenerator.generate`
(embeddings.py line 55) and `ResponseGenerator.generate`
(response_generator.py line 58):
`"429" in str(e) or "quota" in str(e).lower()`. -/
def isRateLimitSignal (msg : String) : Bool :=
  strContains msg "429" || strContains msg.toLower "quota"

/-- Whether an upstream call outcome is classified as a rate-limit
signal by the code's substring test. -/
def isRateLimitErr {α : Type} : Except String α → Bool
  | .ok _ => false
  | .error msg => isRateLimitSignal msg

/-- Terminal outcome of the retry loop.  `ok` is a successful return;
`rateLimitExceeded` is the raised
`Exception("❌ Rate limit exceeded. Please wait and try again.")`;
`upstream` is the bare `raise` re-raising a non-rate-limit error;
`fellOff` is the Python function falling off the end of the `for` loop
(only possible when `max_retries = 0`), returning `None`. -/
inductive RetryResult (α : Type) where
  | ok (v : α)
  | rateLimitExceeded
  | upstream (msg : String)
  | fellOff

/-- Observable trace of one `generate` call: the terminal result, the
0-indexed attempts actually made, and the `time.sleep` delays performed
between attempts, in order. -/
structure RetryTrace (α : Type) where
  result : RetryResult α
  calls : List Nat
  sleeps : List ℚ

/-- The body of the retry loop shared verbatim by
`EmbeddingGenerator.generate` (embeddings.py lines 43-64) and
`ResponseGenerator.generate` (response_generator.py lines 51-67):
`attempt` is the current value of the loop variable and `r` the number
of remaining loop iterations (`maxRetries - attempt`).  On an exception
classified as a rate-limit signal: if `attempt < max_retries - 1`, sleep
`(2 ** attempt) + random.uniform(0, 1)` seconds and continue; otherwise
raise the rate-limit-exceeded exception.  Any other exception is
re-raised immediately.  `call i` is the outcome of the i-th upstream API
call; `jitter i` is the value drawn by `random.uniform(0, 1)` before the
retry following attempt `i`. -/
def retryAux {α : Type} (call : Nat → Except String α) (jitter : Nat → ℚ)
    (maxRetries : Nat) : Nat → Nat → RetryTrace α
  | _, 0 => ⟨.fellOff, [], []⟩
  | attempt, r + 1 =>
    match call attempt with
    | .ok v => ⟨.ok v, [attempt], []⟩
    | .error msg =>
      if isRateLimitSignal msg then
        if attempt < maxRetries - 1 then
          let rest := retryAux call jitter maxRetries (attempt + 1) r
          ⟨rest.result, attempt :: rest.calls,
            ((2 : ℚ) ^ attempt + jitter attempt) :: rest.sleeps⟩
        else ⟨.rateLimitExceeded, [attempt], []⟩
      else ⟨.upstream msg, [attempt], []⟩

/-- The full retry loop `for attempt in range(self.max_retries)`. -/
def retryWithBackoff {α : Type} (call : Nat → Except String α) (jitter : Nat → ℚ)
    (maxRetries : Nat) : RetryTrace α :=
  retryAux call jitter maxRetries 0 maxRetries

/-- `EmbeddingGenerator.generate` (embeddings.py lines 32-64), viewed as
its retry loop over the `genai.embed_content` call. -/
def embeddingGenerate {α : Type} (call : Nat → Except String α) (jitter : Nat → ℚ)
    (maxRetries : Nat) : RetryTrace α :=
  retryWithBackoff call jitter maxRetries

/-- `ResponseGenerator.generate` (response_generator.py lines 33-67),
viewed as its retry loop over the `self.model.generate_content` call;
the loop is textually identical to the one in embeddings.py. -/
def responseGenerate {α : Type} (call : Nat → Except String α) (jitter : Nat → ℚ)
    (maxRetries : Nat) : RetryTrace α :=
  retryWithBackoff call jitter maxRetries

/-- The arithmetic progression `[a, a+1, ..., a+n-1]`. -/
def natSeq : Nat → Nat → List Nat
  | _, 0 => []
  | a, n + 1 => a :: natSeq (a + 1) n

/-- Appending one more element to an arithmetic progression. -/
theorem natSeq_concat (a n : Nat) : natSeq a (n + 1) = natSeq a n ++ [a + n] := by
  induction n generalizing a with
  | zero => simp [natSeq]
  | succ n ih =>
    have h1 : natSeq a (n + 2) = a :: natSeq (a + 1) (n + 1) := rfl
    rw [h1, ih (a + 1)]
    have h2 : a + 1 + n = a + (n + 1) := by omega
    rw [h2]
    rfl

/-- The progression from 0 is `List.range`. -/
theorem natSeq_zero_eq_range (n : Nat) : natSeq 0 n = List.range n := by
  induction n with
  | zero => rfl
  | succ n ih => rw [natSeq_concat, ih, List.range_succ, Nat.zero_add]

/-- Exhaustion run of the retry loop: if every attempt up to
`maxRetries` hits a rate-limit signal, the loop makes exactly the
remaining attempts, sleeps `2^i + jitter i` after each non-final one,
and terminates with the rate-limit-exceeded exception. -/
theorem retryAux_exhaust {α : Type} (call : Nat → Except String α)
    (jitter : Nat → ℚ) (maxRetries : Nat)
    (hall : ∀ i, i < maxRetries → isRateLimitErr (call i) = true)
    (r attempt : Nat) (hr : attempt + r = maxRetries) (hr1 : 1 ≤ r) :
    retryAux call jitter maxRetries attempt r =
      ⟨.rateLimitExceeded, natSeq attempt r,
        (natSeq attempt (r - 1)).map (fun i => (2 : ℚ) ^ i + jitter i)⟩ := by
  induction r generalizing attempt with
  | zero => omega
  | succ r ih =>
    have hcallr := hall attempt (by omega)
    cases hc : call attempt with
    | ok v =>
      rw [hc] at hcallr
      simp [isRateLimitErr] at hcallr
    | error msg =>
      rw [hc] at hcallr
      have hsig : isRateLimitSignal msg = true := by
        simpa [isRateLimitErr] using hcallr
      simp only [retryAux]
      rw [hc]
      simp only [hsig, if_true]
      cases r with
      | zero =>
        rw [if_neg (by omega)]
        rfl
      | succ r2 =>
        rw [if_pos (by omega)]
        rw [ih (attempt + 1) (by omega) (by omega)]
        rfl

/-- Immediate-surfacing run of the retry loop: if the attempts before
`j` all hit rate-limit signals and attempt `j` fails with an error NOT
classified as a rate-limit signal, the loop stops at attempt `j` and
re-raises that error, with no further attempt and no further sleep. -/
theorem retryAux_surface {α : Type} (call : Nat → Except String α)
    (jitter : Nat → ℚ) (maxRetries j : Nat) (msg : String)
    (hpre : ∀ i, i < j → isRateLimitErr (call i) = true)
    (hcall : call j = Except.error msg) (hsig : isRateLimitSignal msg = false)
    (hj : j < maxRetries)
    (r attempt : Nat) (hr : attempt + r = maxRetries) (haj : attempt ≤ j) :
    retryAux call jitter maxRetries attempt r =
      ⟨.upstream msg, natSeq attempt (j - attempt + 1),
        (natSeq attempt (j - attempt)).map (fun i => (2 : ℚ) ^ i + jitter i)⟩ := by
  induction r generalizing attempt with
  | zero => omega
  | succ r ih =>
    by_cases heq : attempt = j
    · subst heq
      simp only [retryAux]
      rw [hcall]
      simp only [hsig]
      rw [if_neg (by simp)]
      simp [natSeq]
    · have hlt : attempt < j := by omega
      have hcalla := hpre attempt hlt
      cases hc : call attempt with
      | ok v =>
        rw [hc] at hcalla
        simp [isRateLimitErr] at hcalla
      | error m =>
        rw [hc] at hcalla
        have hsiga : isRateLimitSignal m = true := by
          simpa [isRateLimitErr] using hcalla
        simp only [retryAux]
        rw [hc]
        simp only [hsiga, if_true]
        rw [if_pos (by omega)]
        rw [ih (attempt + 1) (by omega) (by omega)]
        obtain ⟨d, hd⟩ : ∃ d, j - attempt = d + 1 := ⟨j - attempt - 1, by omega⟩
        have hd2 : j - (attempt + 1) = d := by omega
        rw [hd, hd2]
        rfl

/-- C4: for both the embedding call and the generation call (their retry
loops are textually identical), a run in which every attempt hits a
rate-limit signal makes exactly `maxRetries` attempts and then fails
with the rate-limit-exceeded exception, with no further attempt; the
sleep before the retry after attempt `i` (0-indexed) is exactly
`2^i + jitter i` seconds where `jitter i` is the `random.uniform(0, 1)`
draw, hence lies in `[2^i, 2^i + 1)`; and a non-rate-limit error at any
attempt `j` is re-raised immediately: the loop stops at attempt `j` with
no retry after it. -/
theorem retry_backoff_policy {α : Type} (call : Nat → Except String α)
    (jitter : Nat → ℚ) (maxRetries : Nat)
    (hmr : 1 ≤ maxRetries) (hjit : ∀ i, 0 ≤ jitter i ∧ jitter i < 1) :
    ((∀ i, i < maxRetries → isRateLimitErr (call i) = true) →
      embeddingGenerate call jitter maxRetries =
          ⟨.rateLimitExceeded, List.range maxRetries,
            (List.range (maxRetries - 1)).map (fun i => (2 : ℚ) ^ i + jitter i)⟩ ∧
        responseGenerate call jitter maxRetries =
          ⟨.rateLimitExceeded, List.range maxRetries,
            (List.range (maxRetries - 1)).map (fun i => (2 : ℚ) ^ i + jitter i)⟩) ∧
    (∀ i, (2 : ℚ) ^ i ≤ (2 : ℚ) ^ i + jitter i ∧
      (2 : ℚ) ^ i + jitter i < (2 : ℚ) ^ i + 1) ∧
    (∀ j msg, j < maxRetries → (∀ i, i < j → isRateLimitErr (call i) = true) →
      call j = Except.error msg → isRateLimitSignal msg = false →
      embeddingGenerate call jitter maxRetries =
          ⟨.upstream msg, List.range (j + 1),
            (List.range j).map (fun i => (2 : ℚ) ^ i + jitter i)⟩ ∧
        responseGenerate call jitter maxRetries =
          ⟨.upstream msg, List.range (j + 1),
            (List.range j).map (fun i => (2 : ℚ) ^ i + jitter i)⟩) := by
  refine ⟨?_, ?_, ?_⟩
  · intro hall
    have h := retryAux_exhaust call jitter maxRetries hall maxRetries 0 (by omega) hmr
    rw [natSeq_zero_eq_range, natSeq_zero_eq_range] at h
    exact ⟨h, h⟩
  · intro i
    constructor
    · have := (hjit i).1
      linarith
    · have := (hjit i).2
      linarith
  · intro j msg hj hpre hcall hsig
    have h := retryAux_surface call jitter maxRetries j msg hpre hcall hsig hj
      maxRetries 0 (by omega) (by omega)
    simp only [Nat.sub_zero] at h
    rw [natSeq_zero_eq_range, natSeq_zero_eq_range] at h
    exact ⟨h, h⟩

/-- Upstream stub for the C4 witness: every attempt fails with an HTTP
429 message. -/
def exCallRL : Nat → Except String Nat := fun _ => Except.error "HTTP 429: rate limit"

/-- Jitter stub for the C4 witness: `random.uniform(0, 1)` always draws
one half. -/
def exJitter : Nat → ℚ := fun _ => 1 / 2

/-- Witness for C4 at `max_retries = 3` (the configured default) with
every attempt rate-limited. -/
theorem retry_backoff_policy_witness :
    (1 ≤ 3) ∧ (∀ i, (0 : ℚ) ≤ exJitter i ∧ exJitter i < 1) ∧
    embeddingGenerate exCallRL exJitter 3 =
      ⟨.rateLimitExceeded, List.range 3,
        (List.range 2).map (fun i => (2 : ℚ) ^ i + exJitter i)⟩ :=
  ⟨by omega,
   fun i => by constructor <;> norm_num [exJitter],
   ((retry_backoff_policy exCallRL exJitter 3 (by omega)
      (fun i => by constructor <;> norm_num [exJitter])).1
      (fun i _ => rfl)).1⟩
